import Mathlib

/-!
Verification of the tailscale-kube-proxy core against its specification.

The development shallowly embeds the three engines of the repository:

* the per-request proxy rewrite (`internal/ca.go` `newKubernetesProxy` with a
  `Rewrite` hook, and the variant in the repository that installs a `Director`);
* the Kubernetes-secret-backed state store, in its synchronous form
  (model A, `internal/store.go`) and its cached, informer-watched form
  (model B, the `SecretStore` with in-memory `Data` map);
* the Tailscale watchdog loop (`internal/watchdog.go`).

HTTP headers are association lists from names to values (Go `http.Header`
is a map from a name to a list of values; `Set` replaces all values of a
name by one, `Del` removes them).  Byte slices are lists of naturals.  The
Kubernetes API is modelled by explicit parameters: a fetch result for the
synchronous store and a persistence predicate over the emitted patch for
the cached store.  JSON plus base64 encoding of the state payload is
abstracted to the decoded map itself, with `Option` capturing decode
failure; what matters for the claims is which fields a patch carries and
the Go semantics of `json.Unmarshal` into an existing non-nil map.
-/

/-! ## Byte strings and string-keyed association maps -/

/-- Byte slices (`[]byte`) as lists of naturals; a Go nil slice and an empty
slice both evaluate to `[]`. -/
abbrev Bytes := List Nat

/-- The in-memory `map[string][]byte` of the store, as an association list. -/
abbrev SMap := List (String × Bytes)

/-- Go map indexing with the comma-ok form: the value bound to `k`, if any. -/
def mapLookup (k : String) : SMap → Option Bytes
  | [] => none
  | (k₁, v) :: rest => if k₁ = k then some v else mapLookup k rest

/-- Removal of every binding of `k`. -/
def mapDel (k : String) : SMap → SMap
  | [] => []
  | (k₁, v) :: rest => if k₁ = k then mapDel k rest else (k₁, v) :: mapDel k rest

/-- Go map assignment `m[k] = v`: `k` becomes bound to `v`, all other keys
keep their values. -/
def mapInsert (k : String) (v : Bytes) (m : SMap) : SMap :=
  (k, v) :: mapDel k m

/-! ## HTTP headers -/

/-- A header map as a list of (canonical name, value) pairs; a name may be
bound to several values, in order. -/
abbrev Headers := List (String × String)

/-- All values of header `n`, in order (`http.Header.Values`). -/
def hGet (n : String) : Headers → List String
  | [] => []
  | (m, v) :: rest => if m = n then v :: hGet n rest else hGet n rest

/-- `http.Header.Del`: remove every value of header `n`. -/
def hDel (n : String) : Headers → Headers
  | [] => []
  | (m, v) :: rest => if m = n then hDel n rest else (m, v) :: hDel n rest

/-- `http.Header.Set`: replace all values of header `n` by the single
value `v`. -/
def hSet (n v : String) (h : Headers) : Headers :=
  (n, v) :: hDel n h

/-! ## The proxy rewrite -/

/-- The result of a successful `lc.WhoIs` call: the user profile login name
is all the rewrite consumes. -/
structure WhoIsResult where
  loginName : String

/-- The header transformation shared by both variants of
`newKubernetesProxy`: delete any caller-supplied `Impersonate-User` and
`Impersonate-Group`, then, when `WhoIs` succeeded, set `Impersonate-User`
to the resolved login name and `Authorization` to a bearer token built
from the service credential; on `WhoIs` failure only log. -/
def directorCore (whois : Option WhoIsResult) (token : String) (h : Headers) :
    Headers :=
  let h₁ := hDel "Impersonate-Group" (hDel "Impersonate-User" h)
  match whois with
  | some who =>
      hSet "Authorization" ("Bearer " ++ token)
        (hSet "Impersonate-User" who.loginName h₁)
  | none => h₁

/-- The `Director` variant of `newKubernetesProxy`: the single-host default
director only rewrites the URL (and sets `User-Agent` when absent), so its
header effect on caller-supplied headers is `directorCore`. -/
def director (whois : Option WhoIsResult) (token : String) (h : Headers) :
    Headers :=
  directorCore whois token h

/-- `ProxyRequest.SetXForwarded`: set the three forwarding headers from
connection metadata (client IP, requested host, scheme). -/
def setXForwarded (clientIP host proto : String) (h : Headers) : Headers :=
  hSet "X-Forwarded-Proto" proto
    (hSet "X-Forwarded-Host" host
      (hSet "X-Forwarded-For" clientIP h))

/-- The `Rewrite` variant of `newKubernetesProxy`: `SetURL`, the shared
header transformation, then `SetXForwarded`.  Its input is the outbound
header map, which `httputil.ReverseProxy` initialises from the inbound
headers with the `Forwarded` and `X-Forwarded-*` headers removed before
the `Rewrite` hook runs. -/
def rewriteOut (whois : Option WhoIsResult) (token : String)
    (clientIP host proto : String) (h : Headers) : Headers :=
  setXForwarded clientIP host proto (directorCore whois token h)

/-! ## The secret-backed state store -/

/-- Errors surfaced by the state store: the distinguished not-found
sentinel `ipn.ErrStateNotExist`, or an error from the Kubernetes API
client. -/
inductive StoreErr
  | stateNotExist
  | external (msg : String)
  deriving DecidableEq, Repr

/-- The strategic merge patch emitted by `updateSecret` (model B), by
field of the secret `data` section.  The JSON-marshalled, base64-encoded
`state` payload is abstracted to the decoded map.  `updateSecret` builds
the patch from `json.Marshal(s.Data)` alone, so only the `state` field is
ever present. -/
structure SecretPatch where
  state : Option SMap
  authKey : Option String
  deriving DecidableEq, Repr

/-- The cached store (model B): the in-memory mirror `Data` and the
bootstrap credential `AuthKey`, both kept current by the informer. -/
structure StoreB where
  Data : SMap
  AuthKey : String
  deriving DecidableEq, Repr

/-- `updateSecret` (model B): marshal the whole in-memory map into the
`state` field of a strategic merge patch.  The credential is not part of
the patch. -/
def updateSecretPatch (s : StoreB) : SecretPatch :=
  { state := some s.Data, authKey := none }

/-- `SecretStore.WriteState` (model B).  Under the mutex: remember the old
value with a plain map index (the zero value `[]` when the key is absent),
stage the new value, call `updateSecret` once; on persistence failure
re-assign the old value and return the error.  `persist` models the
Kubernetes patch call; the returned list collects the persistence calls
made. -/
def WriteState (persist : SecretPatch → Bool) (s : StoreB) (id : String)
    (bs : Bytes) : StoreB × Option StoreErr × List SecretPatch :=
  let oldValue := (mapLookup id s.Data).getD []
  let staged : StoreB := { s with Data := mapInsert id bs s.Data }
  let patch := updateSecretPatch staged
  if persist patch then
    (staged, none, [patch])
  else
    ({ staged with Data := mapInsert id oldValue staged.Data },
      some (.external "patch rejected"), [patch])

/-- `SecretStore.ReadState` (model B): serve from the in-memory map; when
the comma-ok lookup misses, return `ipn.ErrStateNotExist`. -/
def ReadState (s : StoreB) (id : String) : Except StoreErr Bytes :=
  match mapLookup id s.Data with
  | some data => .ok data
  | none => .error .stateNotExist

/-- A Kubernetes secret as seen by the informer: its object name, the
decoded `data.state` payload (`none` when `json.Unmarshal` fails), and the
`data.authKey` field. -/
structure K8sSecret where
  name : String
  statePayload : Option SMap
  authKey : String
  deriving DecidableEq, Repr

/-- Go `json.Unmarshal` into an existing non-nil map reuses the map and
keeps entries whose keys do not occur in the JSON object: the decoded
entries are stored one by one into `old`. -/
def mergeInto (old entries : SMap) : SMap :=
  entries.foldl (fun acc kv => mapInsert kv.1 kv.2 acc) old

/-- `informerHandler` (model B): under the mutex, set `AuthKey` from the
secret and `json.Unmarshal` the `state` payload into the existing `Data`
map; on unmarshal failure only log (`Data` keeps its entries). -/
def informerHandler (s : StoreB) (secret : K8sSecret) : StoreB :=
  let s₁ : StoreB := { s with AuthKey := secret.authKey }
  match secret.statePayload with
  | some entries => { s₁ with Data := mergeInto s₁.Data entries }
  | none => s₁

/-- The `AddFunc`/`UpdateFunc` event handlers registered on the informer:
run `informerHandler` only when the observed secret carries the configured
name. -/
def onSecretEvent (storeName : String) (s : StoreB) (secret : K8sSecret) :
    StoreB :=
  if secret.name = storeName then informerHandler s secret else s

/-- `SecretStore.ReadState` (model A, `internal/store.go`): fetch the
secret and index its data map directly; an absent key yields the zero
value `nil` with a nil error.  `fetch` models `getSecret`. -/
def ReadStateA (fetch : Except String SMap) (id : String) :
    Except StoreErr Bytes :=
  match fetch with
  | .error e => .error (.external e)
  | .ok data => .ok ((mapLookup id data).getD [])

/-! ## The watchdog -/

/-- One iteration of the watchdog select: either the context is observed
cancelled, or the ticker fires and the status query returns an error or a
backend state string. -/
inductive TickEvent
  | cancel
  | tick (r : Except String String)
  deriving Repr

/-- How a finite run of the watchdog loop ended. -/
inductive WdOutcome
  | cancelled
  | degraded
  | stillLooping
  deriving DecidableEq, Repr

/-- `checkTailscaleStatus`: an error when the status query fails or when
the backend state differs from Running; `none` when healthy. -/
def checkTailscaleStatus : Except String String → Option String
  | .error e => some ("failed to get backend status: " ++ e)
  | .ok st =>
      if st = "Running" then none
      else some ("backend is in " ++ st ++ " state, expected Running")

/-- The watchdog loop over a finite event schedule, counting polls from
`i`: a cancel observation returns with no signal; a failing check emits
exactly one signal (tagged with its poll number) on the error channel and
returns; a passing check continues. -/
def watchdogRun (i : Nat) : List TickEvent → List (Nat × String) × WdOutcome
  | [] => ([], .stillLooping)
  | .cancel :: _ => ([], .cancelled)
  | .tick r :: rest =>
    match checkTailscaleStatus r with
    | none => watchdogRun (i + 1) rest
    | some e => ([(i, "tailscale watchdog check failed: " ++ e)], .degraded)

/-! ## Concurrent writers: an interleaving semantics of WriteState -/

/-- Program counter of one writer executing `WriteState` for a fixed key:
before `mutex.Lock`; holding the lock before reading the old value; old
value read; new value staged into the map; `updateSecret` returned (with
the rollback already applied on failure); unlocked and returned. -/
inductive WPc
  | start
  | locked
  | readDone
  | stagedPc
  | persistDone
  | donePc
  deriving DecidableEq, Repr

/-- Whether a program counter lies strictly inside the critical section,
between `mutex.Lock` and the deferred unlock. -/
def WPc.mid : WPc → Bool
  | .start => false
  | .donePc => false
  | _ => true

/-- A configuration of `n` writers racing on one key: who holds the mutex,
each writer program counter, each writer local `oldValue`, and the shared
in-memory map. -/
structure WConfig (n : Nat) where
  lock : Option (Fin n)
  pc : Fin n → WPc
  old : Fin n → Bytes
  store : SMap

/-- The initial configuration: mutex free, every writer before its
`WriteState` call, the shared map at `s₀`. -/
def WConfig.init (n : Nat) (s₀ : SMap) : WConfig n :=
  { lock := none, pc := fun _ => .start, old := fun _ => [], store := s₀ }

/-- One interleaving step of the racing writers: writer `i` acquires the
free mutex, reads the old value of `k`, stages its value `v i`, completes
the persistence call (`ok i` decides success; failure re-assigns the old
value), or releases the mutex.  Every access to the shared map happens
between the lock and unlock steps of the same writer, mirroring
`WriteState`. -/
inductive WStep (n : Nat) (k : String) (v : Fin n → Bytes) (ok : Fin n → Bool) :
    WConfig n → WConfig n → Prop
  | lockStep (s : WConfig n) (i : Fin n)
      (h₁ : s.pc i = .start) (h₂ : s.lock = none) :
      WStep n k v ok s
        { s with lock := some i, pc := Function.update s.pc i .locked }
  | readStep (s : WConfig n) (i : Fin n)
      (h₁ : s.pc i = .locked) (h₂ : s.lock = some i) :
      WStep n k v ok s
        { s with pc := Function.update s.pc i .readDone,
                 old := Function.update s.old i ((mapLookup k s.store).getD []) }
  | stageStep (s : WConfig n) (i : Fin n)
      (h₁ : s.pc i = .readDone) (h₂ : s.lock = some i) :
      WStep n k v ok s
        { s with pc := Function.update s.pc i .stagedPc,
                 store := mapInsert k (v i) s.store }
  | persistOkStep (s : WConfig n) (i : Fin n)
      (h₁ : s.pc i = .stagedPc) (h₂ : s.lock = some i) (h₃ : ok i = true) :
      WStep n k v ok s
        { s with pc := Function.update s.pc i .persistDone }
  | persistFailStep (s : WConfig n) (i : Fin n)
      (h₁ : s.pc i = .stagedPc) (h₂ : s.lock = some i) (h₃ : ok i = false) :
      WStep n k v ok s
        { s with pc := Function.update s.pc i .persistDone,
                 store := mapInsert k (s.old i) s.store }
  | unlockStep (s : WConfig n) (i : Fin n)
      (h₁ : s.pc i = .persistDone) (h₂ : s.lock = some i) :
      WStep n k v ok s
        { s with lock := none, pc := Function.update s.pc i .donePc }

/-- The invariant carried through every interleaving: the mutex is held by
any writer inside its critical section, and the key either still has its
initial binding (while no writer has staged) or holds the value of some
writer. -/
def wInv (n : Nat) (k : String) (v : Fin n → Bytes) (s₀ : SMap)
    (s : WConfig n) : Prop :=
  (∀ i, (s.pc i).mid = true → s.lock = some i) ∧
  ((mapLookup k s.store = mapLookup k s₀ ∧
      ∀ i, s.pc i = .start ∨ s.pc i = .locked ∨ s.pc i = .readDone) ∨
    ∃ i, mapLookup k s.store = some (v i))

/-- A five-step execution of one writer on key `k`, step by step from
`WConfig.init`: lock, read, stage, persist, unlock. -/
def wTrace0 : WConfig 1 := WConfig.init 1 []

/-- The writer has acquired the mutex. -/
def wTrace1 : WConfig 1 :=
  { wTrace0 with lock := some 0, pc := Function.update wTrace0.pc 0 .locked }

/-- The writer has read the old value of the key. -/
def wTrace2 : WConfig 1 :=
  { wTrace1 with pc := Function.update wTrace1.pc 0 .readDone,
                 old := Function.update wTrace1.old 0
                   ((mapLookup "k" wTrace1.store).getD []) }

/-- The writer has staged its value. -/
def wTrace3 : WConfig 1 :=
  { wTrace2 with pc := Function.update wTrace2.pc 0 .stagedPc,
                 store := mapInsert "k" ((fun _ : Fin 1 => [7]) 0) wTrace2.store }

/-- The persistence call has succeeded. -/
def wTrace4 : WConfig 1 :=
  { wTrace3 with pc := Function.update wTrace3.pc 0 .persistDone }

/-- The writer has released the mutex and returned. -/
def wTrace5 : WConfig 1 :=
  { wTrace4 with lock := none, pc := Function.update wTrace4.pc 0 .donePc }

/-! ## Helper lemmas -/

theorem mapLookup_del_ne (k k₁ : String) (m : SMap) (h : k₁ ≠ k) :
    mapLookup k (mapDel k₁ m) = mapLookup k m := by
  induction m with
  | nil => rfl
  | cons kv rest ih =>
    rcases kv with ⟨a, b⟩
    by_cases ha : a = k₁
    · subst ha
      simp [mapDel, mapLookup, h, ih]
    · simp [mapDel, mapLookup, ha, ih]

theorem mapLookup_insert_self (k : String) (v : Bytes) (m : SMap) :
    mapLookup k (mapInsert k v m) = some v := by
  simp [mapInsert, mapLookup]

theorem mapLookup_insert_ne (k k₁ : String) (v : Bytes) (m : SMap) (h : k₁ ≠ k) :
    mapLookup k (mapInsert k₁ v m) = mapLookup k m := by
  simp [mapInsert, mapLookup, h, mapLookup_del_ne k k₁ m h]

theorem hGet_del_self (n : String) (h : Headers) : hGet n (hDel n h) = [] := by
  induction h with
  | nil => rfl
  | cons p rest ih =>
    rcases p with ⟨m, v⟩
    by_cases hm : m = n <;> simp [hDel, hGet, hm, ih]

theorem hGet_del_ne (n m : String) (h : Headers) (hnm : n ≠ m) :
    hGet n (hDel m h) = hGet n h := by
  induction h with
  | nil => rfl
  | cons p rest ih =>
    rcases p with ⟨a, v⟩
    by_cases ham : a = m
    · subst ham
      simp [hDel, hGet, Ne.symm hnm, ih]
    · simp [hDel, hGet, ham, ih]

theorem hGet_set_self (n v : String) (h : Headers) :
    hGet n (hSet n v h) = [v] := by
  simp [hSet, hGet, hGet_del_self n h]

theorem hGet_set_ne (n m v : String) (h : Headers) (hnm : n ≠ m) :
    hGet n (hSet m v h) = hGet n h := by
  have hmn : ¬ m = n := fun hh => hnm hh.symm
  simp [hSet, hGet, hmn, hGet_del_ne n m h hnm]

theorem mergeInto_cons (old : SMap) (a : String) (b : Bytes) (rest : SMap) :
    mergeInto old ((a, b) :: rest) = mergeInto (mapInsert a b old) rest := rfl

theorem mapLookup_mergeInto_notin (entries : SMap) (old : SMap) (k : String)
    (h : k ∉ entries.map Prod.fst) :
    mapLookup k (mergeInto old entries) = mapLookup k old := by
  induction entries generalizing old with
  | nil => rfl
  | cons kv rest ih =>
    rcases kv with ⟨a, b⟩
    simp only [List.map_cons, List.mem_cons, not_or] at h
    have hak : a ≠ k := fun hh => h.1 hh.symm
    rw [mergeInto_cons, ih (mapInsert a b old) h.2,
      mapLookup_insert_ne k a b old hak]

theorem mapLookup_mergeInto_mem (entries : SMap) (old : SMap) (k : String)
    (v : Bytes) (hnd : (entries.map Prod.fst).Nodup)
    (h : mapLookup k entries = some v) :
    mapLookup k (mergeInto old entries) = some v := by
  induction entries generalizing old with
  | nil => simp [mapLookup] at h
  | cons kv rest ih =>
    rcases kv with ⟨a, b⟩
    simp only [List.map_cons, List.nodup_cons] at hnd
    by_cases hak : a = k
    · subst hak
      simp only [mapLookup, if_pos rfl] at h
      obtain rfl : b = v := Option.some.inj h
      rw [mergeInto_cons, mapLookup_mergeInto_notin rest (mapInsert a b old) a hnd.1]
      exact mapLookup_insert_self a b old
    · simp only [mapLookup, if_neg hak] at h
      rw [mergeInto_cons]
      exact ih (mapInsert a b old) hnd.2 h

theorem directorCore_user (whois : Option WhoIsResult) (token : String)
    (h : Headers) :
    hGet "Impersonate-User" (directorCore whois token h) =
      match whois with
      | some who => [who.loginName]
      | none => [] := by
  cases whois with
  | none =>
    show hGet "Impersonate-User"
        (hDel "Impersonate-Group" (hDel "Impersonate-User" h)) = []
    rw [hGet_del_ne _ _ _ (by decide), hGet_del_self]
  | some who =>
    show hGet "Impersonate-User"
        (hSet "Authorization" ("Bearer " ++ token)
          (hSet "Impersonate-User" who.loginName
            (hDel "Impersonate-Group" (hDel "Impersonate-User" h)))) =
      [who.loginName]
    rw [hGet_set_ne _ _ _ _ (by decide), hGet_set_self]

theorem directorCore_group (whois : Option WhoIsResult) (token : String)
    (h : Headers) :
    hGet "Impersonate-Group" (directorCore whois token h) = [] := by
  cases whois with
  | none =>
    show hGet "Impersonate-Group"
        (hDel "Impersonate-Group" (hDel "Impersonate-User" h)) = []
    rw [hGet_del_self]
  | some who =>
    show hGet "Impersonate-Group"
        (hSet "Authorization" ("Bearer " ++ token)
          (hSet "Impersonate-User" who.loginName
            (hDel "Impersonate-Group" (hDel "Impersonate-User" h)))) = []
    rw [hGet_set_ne _ _ _ _ (by decide), hGet_set_ne _ _ _ _ (by decide),
      hGet_del_self]

theorem directorCore_none_other (token : String) (h : Headers) (n : String)
    (h₁ : n ≠ "Impersonate-User") (h₂ : n ≠ "Impersonate-Group") :
    hGet n (directorCore none token h) = hGet n h := by
  show hGet n (hDel "Impersonate-Group" (hDel "Impersonate-User" h)) = hGet n h
  rw [hGet_del_ne _ _ _ h₂, hGet_del_ne _ _ _ h₁]

theorem directorCore_some_other (who : WhoIsResult) (token : String)
    (h : Headers) (n : String) (h₁ : n ≠ "Impersonate-User")
    (h₂ : n ≠ "Impersonate-Group") (h₃ : n ≠ "Authorization") :
    hGet n (directorCore (some who) token h) = hGet n h := by
  show hGet n
      (hSet "Authorization" ("Bearer " ++ token)
        (hSet "Impersonate-User" who.loginName
          (hDel "Impersonate-Group" (hDel "Impersonate-User" h)))) = hGet n h
  rw [hGet_set_ne _ _ _ _ h₃, hGet_set_ne _ _ _ _ h₁, hGet_del_ne _ _ _ h₂,
    hGet_del_ne _ _ _ h₁]

theorem directorCore_some_auth (who : WhoIsResult) (token : String)
    (h : Headers) :
    hGet "Authorization" (directorCore (some who) token h) =
      ["Bearer " ++ token] := by
  show hGet "Authorization"
      (hSet "Authorization" ("Bearer " ++ token)
        (hSet "Impersonate-User" who.loginName
          (hDel "Impersonate-Group" (hDel "Impersonate-User" h)))) = _
  rw [hGet_set_self]

theorem setXForwarded_other (clientIP host proto : String) (h : Headers)
    (n : String) (h₁ : n ≠ "X-Forwarded-For") (h₂ : n ≠ "X-Forwarded-Host")
    (h₃ : n ≠ "X-Forwarded-Proto") :
    hGet n (setXForwarded clientIP host proto h) = hGet n h := by
  unfold setXForwarded
  rw [hGet_set_ne _ _ _ _ h₃, hGet_set_ne _ _ _ _ h₂, hGet_set_ne _ _ _ _ h₁]

theorem WriteState_persist_ok (persist : SecretPatch → Bool) (s : StoreB)
    (id : String) (bs : Bytes)
    (hp : persist (updateSecretPatch { s with Data := mapInsert id bs s.Data })
      = true) :
    WriteState persist s id bs =
      ({ s with Data := mapInsert id bs s.Data }, none,
        [updateSecretPatch { s with Data := mapInsert id bs s.Data }]) := by
  simp only [WriteState, hp, if_true]

theorem WriteState_persist_fail (persist : SecretPatch → Bool) (s : StoreB)
    (id : String) (bs : Bytes)
    (hp : persist (updateSecretPatch { s with Data := mapInsert id bs s.Data })
      = false) :
    WriteState persist s id bs =
      ((⟨mapInsert id ((mapLookup id s.Data).getD []) (mapInsert id bs s.Data),
          s.AuthKey⟩ : StoreB),
        some (.external "patch rejected"),
        [updateSecretPatch { s with Data := mapInsert id bs s.Data }]) := by
  simp only [WriteState, hp, if_false, Bool.false_eq_true]

theorem watchdogRun_cancel (i : Nat) (evs rest : List TickEvent)
    (hpass : ∀ e ∈ evs, ∃ r, e = .tick r ∧ checkTailscaleStatus r = none) :
    watchdogRun i (evs ++ .cancel :: rest) = ([], .cancelled) := by
  induction evs generalizing i with
  | nil => rfl
  | cons e evs ih =>
    obtain ⟨r, rfl, hr⟩ := hpass e (List.mem_cons_self e evs)
    show watchdogRun i (.tick r :: (evs ++ .cancel :: rest)) = ([], .cancelled)
    rw [show watchdogRun i (.tick r :: (evs ++ .cancel :: rest)) =
        watchdogRun (i + 1) (evs ++ .cancel :: rest) by
      simp [watchdogRun, hr]]
    exact ih (i + 1) (fun e he => hpass e (List.mem_cons_of_mem _ he))

theorem wInv_init (n : Nat) (k : String) (v : Fin n → Bytes) (s₀ : SMap) :
    wInv n k v s₀ (WConfig.init n s₀) := by
  constructor
  · intro i hi
    simp [WConfig.init, WPc.mid] at hi
  · exact Or.inl ⟨rfl, fun i => Or.inl rfl⟩

theorem wInv_step {n : Nat} {k : String} {v : Fin n → Bytes}
    {ok : Fin n → Bool} {s₀ : SMap} {s s₁ : WConfig n}
    (hok : ∀ i, ok i = true) (hinv : wInv n k v s₀ s)
    (hstep : WStep n k v ok s s₁) : wInv n k v s₀ s₁ := by
  obtain ⟨hmutex, hstore⟩ := hinv
  cases hstep with
  | lockStep i h₁ h₂ =>
    constructor
    · intro j hj
      by_cases hji : j = i
      · subst hji; rfl
      · simp only [Function.update_noteq hji] at hj
        have hx := hmutex j hj
        rw [h₂] at hx
        exact Option.noConfusion hx
    · rcases hstore with ⟨he, hall⟩ | ⟨j, hj⟩
      · refine Or.inl ⟨he, fun j => ?_⟩
        by_cases hji : j = i
        · subst hji; simp [Function.update_same]
        · simp only [Function.update_noteq hji]; exact hall j
      · exact Or.inr ⟨j, hj⟩
  | readStep i h₁ h₂ =>
    constructor
    · intro j hj
      by_cases hji : j = i
      · subst hji; exact h₂
      · simp only [Function.update_noteq hji] at hj
        exact hmutex j hj
    · rcases hstore with ⟨he, hall⟩ | ⟨j, hj⟩
      · refine Or.inl ⟨he, fun j => ?_⟩
        by_cases hji : j = i
        · subst hji; simp [Function.update_same]
        · simp only [Function.update_noteq hji]; exact hall j
      · exact Or.inr ⟨j, hj⟩
  | stageStep i h₁ h₂ =>
    constructor
    · intro j hj
      by_cases hji : j = i
      · subst hji; exact h₂
      · simp only [Function.update_noteq hji] at hj
        exact hmutex j hj
    · exact Or.inr ⟨i, mapLookup_insert_self k (v i) s.store⟩
  | persistOkStep i h₁ h₂ h₃ =>
    constructor
    · intro j hj
      by_cases hji : j = i
      · subst hji; exact h₂
      · simp only [Function.update_noteq hji] at hj
        exact hmutex j hj
    · rcases hstore with ⟨he, hall⟩ | ⟨j, hj⟩
      · rcases hall i with h | h | h <;> (rw [h₁] at h; exact WPc.noConfusion h)
      · exact Or.inr ⟨j, hj⟩
  | persistFailStep i h₁ h₂ h₃ =>
    simp [hok i] at h₃
  | unlockStep i h₁ h₂ =>
    constructor
    · intro j hj
      by_cases hji : j = i
      · subst hji; simp only [Function.update_same] at hj
        exact Bool.noConfusion hj
      · simp only [Function.update_noteq hji] at hj
        have hx := hmutex j hj
        rw [h₂] at hx
        exact absurd (Option.some.inj hx.symm) hji
    · rcases hstore with ⟨he, hall⟩ | ⟨j, hj⟩
      · rcases hall i with h | h | h <;> (rw [h₁] at h; exact WPc.noConfusion h)
      · exact Or.inr ⟨j, hj⟩

theorem wInv_reachable {n : Nat} {k : String} {v : Fin n → Bytes}
    {ok : Fin n → Bool} {s₀ : SMap} {s : WConfig n} (hok : ∀ i, ok i = true)
    (hreach : Relation.ReflTransGen (WStep n k v ok) (WConfig.init n s₀) s) :
    wInv n k v s₀ s := by
  induction hreach with
  | refl => exact wInv_init n k v s₀
  | tail _ hbc ih => exact wInv_step hok ih hbc

/-! ## Claims -/

/-- C1: for every inbound request, also one carrying attacker-supplied
impersonation headers, the forwarded request never contains the
caller-supplied impersonation values: after the rewrite (either variant)
the Impersonate-Group header is empty, and the Impersonate-User header
holds exactly the login name returned by the resolver when resolution
succeeded and nothing when it failed — stripping always runs before
injection. -/
theorem c1_impersonation_hygiene (whois : Option WhoIsResult)
    (token clientIP host proto : String) (h : Headers) :
    (hGet "Impersonate-User" (director whois token h) =
      match whois with
      | some who => [who.loginName]
      | none => []) ∧
    hGet "Impersonate-Group" (director whois token h) = [] ∧
    (hGet "Impersonate-User" (rewriteOut whois token clientIP host proto h) =
      match whois with
      | some who => [who.loginName]
      | none => []) ∧
    hGet "Impersonate-Group" (rewriteOut whois token clientIP host proto h)
      = [] := by
  refine ⟨directorCore_user whois token h, directorCore_group whois token h,
    ?_, ?_⟩
  · show hGet "Impersonate-User"
        (setXForwarded clientIP host proto (directorCore whois token h)) = _
    rw [setXForwarded_other _ _ _ _ _ (by decide) (by decide) (by decide)]
    exact directorCore_user whois token h
  · show hGet "Impersonate-Group"
        (setXForwarded clientIP host proto (directorCore whois token h)) = _
    rw [setXForwarded_other _ _ _ _ _ (by decide) (by decide) (by decide)]
    exact directorCore_group whois token h

/-- C9: the rewrite removes only the two impersonation headers.  When
identity resolution fails, every other header — a caller-supplied
Authorization header included — keeps exactly its caller-supplied values;
when it succeeds, only Authorization is additionally overwritten, with the
service bearer token.  For the Rewrite variant the three X-Forwarded
headers are also excepted: that variant sets them from connection
metadata, and the standard library removes their inbound values before the
hook runs. -/
theorem c9_rewrite_frame (token clientIP host proto : String) (h : Headers) :
    (∀ n, n ≠ "Impersonate-User" → n ≠ "Impersonate-Group" →
      hGet n (director none token h) = hGet n h) ∧
    (∀ who n, n ≠ "Impersonate-User" → n ≠ "Impersonate-Group" →
      n ≠ "Authorization" →
      hGet n (director (some who) token h) = hGet n h) ∧
    (∀ who, hGet "Authorization" (director (some who) token h) =
      ["Bearer " ++ token]) ∧
    (∀ n, n ≠ "Impersonate-User" → n ≠ "Impersonate-Group" →
      n ≠ "X-Forwarded-For" → n ≠ "X-Forwarded-Host" →
      n ≠ "X-Forwarded-Proto" →
      hGet n (rewriteOut none token clientIP host proto h) = hGet n h) ∧
    (∀ who n, n ≠ "Impersonate-User" → n ≠ "Impersonate-Group" →
      n ≠ "Authorization" → n ≠ "X-Forwarded-For" → n ≠ "X-Forwarded-Host" →
      n ≠ "X-Forwarded-Proto" →
      hGet n (rewriteOut (some who) token clientIP host proto h) = hGet n h) ∧
    (∀ who, hGet "Authorization"
        (rewriteOut (some who) token clientIP host proto h) =
      ["Bearer " ++ token]) := by
  refine ⟨?_, ?_, ?_, ?_, ?_, ?_⟩
  · exact fun n h₁ h₂ => directorCore_none_other token h n h₁ h₂
  · exact fun who n h₁ h₂ h₃ => directorCore_some_other who token h n h₁ h₂ h₃
  · exact fun who => directorCore_some_auth who token h
  · intro n h₁ h₂ h₃ h₄ h₅
    unfold rewriteOut
    rw [setXForwarded_other _ _ _ _ _ h₃ h₄ h₅]
    exact directorCore_none_other token h n h₁ h₂
  · intro who n h₁ h₂ h₃ h₄ h₅ h₆
    unfold rewriteOut
    rw [setXForwarded_other _ _ _ _ _ h₄ h₅ h₆]
    exact directorCore_some_other who token h n h₁ h₂ h₃
  · intro who
    unfold rewriteOut
    rw [setXForwarded_other _ _ _ _ _ (by decide) (by decide) (by decide)]
    exact directorCore_some_auth who token h

/-- C9 witness: a caller-supplied Authorization header survives a failed
resolution untouched, and a success overwrites Authorization with the
bearer token, at concrete inputs. -/
theorem c9_rewrite_frame_witness :
    hGet "Authorization"
      (director none "tok"
        [("Authorization", "Bearer caller"), ("Impersonate-User", "evil")]) =
      ["Bearer caller"] ∧
    hGet "Accept"
      (rewriteOut (some ⟨"alice"⟩) "tok" "ip" "host" "https"
        [("Accept", "x")]) = ["x"] := by
  constructor
  · exact ((c9_rewrite_frame "tok" "ip" "host" "https"
      [("Authorization", "Bearer caller"), ("Impersonate-User", "evil")]).1
      "Authorization" (by decide) (by decide)).trans (by decide)
  · exact ((c9_rewrite_frame "tok" "ip" "host" "https"
      [("Accept", "x")]).2.2.2.2.1 ⟨"alice"⟩
      "Accept" (by decide) (by decide) (by decide) (by decide) (by decide)
      (by decide)).trans (by decide)

/-- C4: when the persistence call succeeds, a write followed by a read of
the same key yields exactly the written bytes, and the write reports no
error. -/
theorem c4_write_read_roundtrip (persist : SecretPatch → Bool) (s : StoreB)
    (id : String) (bs : Bytes)
    (hp : persist (updateSecretPatch { s with Data := mapInsert id bs s.Data })
      = true) :
    (WriteState persist s id bs).2.1 = none ∧
    ReadState (WriteState persist s id bs).1 id = .ok bs := by
  rw [WriteState_persist_ok persist s id bs hp]
  refine ⟨rfl, ?_⟩
  simp [ReadState, mapLookup_insert_self]

/-- C4 witness: the round trip at a concrete store, key and value. -/
theorem c4_write_read_roundtrip_witness :
    (WriteState (fun _ => true) ⟨[], "ak"⟩ "k" [1, 2]).2.1 = none ∧
    ReadState (WriteState (fun _ => true) ⟨[], "ak"⟩ "k" [1, 2]).1 "k" =
      .ok [1, 2] :=
  c4_write_read_roundtrip (fun _ => true) ⟨[], "ak"⟩ "k" [1, 2] rfl

/-- C2 counterexample: writing value [1] under the absent key "k" with a
failing persistence call leaves the key present: the subsequent read
yields ok with the empty byte slice — the rollback re-inserted the key
bound to the Go zero value — and not the not-found outcome the claim
requires for a previously absent key. -/
theorem c2_rollback_counterexample :
    mapLookup "k" (⟨[], "ak"⟩ : StoreB).Data = none ∧
    (WriteState (fun _ => false) ⟨[], "ak"⟩ "k" [1]).2.1 ≠ none ∧
    ReadState (WriteState (fun _ => false) ⟨[], "ak"⟩ "k" [1]).1 "k" =
      .ok [] := by
  refine ⟨rfl, ?_, rfl⟩
  decide

/-- C2 (amended): if the persistence call fails during a write, the write
surfaces the error and a subsequent read of the key yields the value
present before the failed write when the key existed; when the key was
absent before, the read instead yields a found result with empty bytes —
the rollback re-assigns the zero value obtained by the plain map index —
rather than not-found. -/
theorem c2_rollback (persist : SecretPatch → Bool) (s : StoreB) (id : String)
    (bs w : Bytes)
    (hp : persist (updateSecretPatch { s with Data := mapInsert id bs s.Data })
      = false) :
    (WriteState persist s id bs).2.1 = some (.external "patch rejected") ∧
    (mapLookup id s.Data = some w →
      ReadState (WriteState persist s id bs).1 id = .ok w) ∧
    (mapLookup id s.Data = none →
      ReadState (WriteState persist s id bs).1 id = .ok []) := by
  rw [WriteState_persist_fail persist s id bs hp]
  refine ⟨rfl, ?_, ?_⟩
  · intro hw
    simp [ReadState, mapLookup_insert_self, hw]
  · intro hw
    simp [ReadState, mapLookup_insert_self, hw]

/-- C2 witness: the amended rollback at a concrete store where the key
exists: the failed write reports its error and the read returns the old
value. -/
theorem c2_rollback_witness :
    (WriteState (fun _ => false) ⟨[("k", [9])], "ak"⟩ "k" [1]).2.1 =
      some (.external "patch rejected") ∧
    ReadState
      (WriteState (fun _ => false) ⟨[("k", [9])], "ak"⟩ "k" [1]).1 "k" =
      .ok [9] :=
  ⟨(c2_rollback (fun _ => false) ⟨[("k", [9])], "ak"⟩ "k" [1] [9] rfl).1,
   (c2_rollback (fun _ => false) ⟨[("k", [9])], "ak"⟩ "k" [1] [9] rfl).2.1 rfl⟩

/-- C3 counterexample: a secret with matching name is observed whose
decoded payload does not contain the key "stale", yet the in-memory entry
for "stale" survives the update — `json.Unmarshal` into the existing
non-nil map merges instead of fully replacing. -/
theorem c3_replace_counterexample :
    mapLookup "stale"
      (onSecretEvent "tskp" ⟨[("stale", [1])], ""⟩
        ⟨"tskp", some [("fresh", [2])], "ak"⟩).Data = some [1] := by
  decide

/-- C3 (amended): the subscription handler ignores secrets whose name
differs from the configured one; for a matching secret it takes the
credential from the secret and merges the decoded state payload into the
in-memory map: payload entries overwrite their keys, but keys present in
memory and absent from the payload survive — the map is not fully
replaced. -/
theorem c3_informer_merge (storeName : String) (s : StoreB)
    (secret : K8sSecret) (entries : SMap) (k : String) (w : Bytes) :
    (secret.name ≠ storeName → onSecretEvent storeName s secret = s) ∧
    (secret.name = storeName → secret.statePayload = some entries →
      ((onSecretEvent storeName s secret).AuthKey = secret.authKey ∧
       (k ∉ entries.map Prod.fst →
         mapLookup k (onSecretEvent storeName s secret).Data =
           mapLookup k s.Data) ∧
       ((entries.map Prod.fst).Nodup → mapLookup k entries = some w →
         mapLookup k (onSecretEvent storeName s secret).Data = some w))) := by
  constructor
  · intro hne
    simp [onSecretEvent, hne]
  · intro hname hpayload
    have hev : onSecretEvent storeName s secret = informerHandler s secret := by
      simp [onSecretEvent, hname]
    rw [hev]
    simp only [informerHandler, hpayload]
    refine ⟨trivial, ?_, ?_⟩
    · intro hk
      exact mapLookup_mergeInto_notin entries s.Data k hk
    · intro hnd hkv
      exact mapLookup_mergeInto_mem entries s.Data k w hnd hkv

/-- C3 witness: a non-matching secret leaves the store unchanged, and in a
matching update a payload entry takes effect, at concrete inputs. -/
theorem c3_informer_merge_witness :
    onSecretEvent "tskp" ⟨[("a", [1])], "old"⟩ ⟨"other", some [], "x"⟩ =
      ⟨[("a", [1])], "old"⟩ ∧
    mapLookup "fresh"
      (onSecretEvent "tskp" ⟨[("stale", [1])], ""⟩
        ⟨"tskp", some [("fresh", [2])], "ak"⟩).Data = some [2] := by
  constructor
  · exact (c3_informer_merge "tskp" ⟨[("a", [1])], "old"⟩
      ⟨"other", some [], "x"⟩ [] "z" []).1 (by decide)
  · exact ((c3_informer_merge "tskp" ⟨[("stale", [1])], ""⟩
      ⟨"tskp", some [("fresh", [2])], "ak"⟩ [("fresh", [2])] "fresh" [2]).2
      rfl rfl).2.2 (by decide) rfl

/-- C5: on the observed status sequence Running, Running, Stopped the
watchdog emits exactly one failure signal, at the third poll, and its loop
terminates in the degraded state; when cancellation is observed before any
failing poll, the loop exits without emitting a signal. -/
theorem c5_watchdog_termination (i : Nat) (evs rest : List TickEvent)
    (hpass : ∀ e ∈ evs, ∃ r, e = .tick r ∧ checkTailscaleStatus r = none) :
    watchdogRun 1
        [.tick (.ok "Running"), .tick (.ok "Running"),
          .tick (.ok "Stopped")] =
      ([(3,
          "tailscale watchdog check failed: backend is in Stopped state, expected Running")],
        .degraded) ∧
    watchdogRun i (evs ++ .cancel :: rest) = ([], .cancelled) :=
  ⟨by decide, watchdogRun_cancel i evs rest hpass⟩

/-- C5 witness: one healthy poll followed by an observed cancellation
exits with no signal. -/
theorem c5_watchdog_termination_witness :
    watchdogRun 1 [TickEvent.tick (.ok "Running"), TickEvent.cancel] =
      ([], .cancelled) :=
  (c5_watchdog_termination 1 [.tick (.ok "Running")] []
    (by
      intro e he
      simp only [List.mem_singleton] at he
      subst he
      exact ⟨.ok "Running", rfl, rfl⟩)).2

/-- C6 counterexample: the single persistence call of a concrete
successful write carries no bootstrap-credential field — only the state
field is serialized into the patch, so the write does not serialize the
credential into the payload. -/
theorem c6_patch_counterexample :
    ((WriteState (fun _ => true) ⟨[("a", [9])], "ak"⟩ "k" [1]).2.2).map
      SecretPatch.authKey = [none] := by
  decide

/-- C6 (amended): every write stages the new value and issues exactly one
persistence call whose patch serializes the entire staged in-memory map
into the state field; the bootstrap credential is not part of the patch —
the partial update leaves that field of the external object untouched —
and on success the staged map is exactly the new in-memory map. -/
theorem c6_write_patch (persist : SecretPatch → Bool) (s : StoreB)
    (id : String) (bs : Bytes) :
    (WriteState persist s id bs).2.2 =
      [{ state := some (mapInsert id bs s.Data), authKey := none }] ∧
    ((WriteState persist s id bs).2.1 = none →
      (WriteState persist s id bs).1.Data = mapInsert id bs s.Data) := by
  by_cases hp :
    persist (updateSecretPatch { s with Data := mapInsert id bs s.Data }) = true
  · rw [WriteState_persist_ok persist s id bs hp]
    exact ⟨rfl, fun _ => rfl⟩
  · rw [Bool.not_eq_true] at hp
    rw [WriteState_persist_fail persist s id bs hp]
    refine ⟨rfl, ?_⟩
    intro hc
    exact absurd hc (by simp)

/-- C6 witness: a successful write at concrete inputs produces exactly one
patch, with the staged map and no credential, and the staged map becomes
the in-memory map. -/
theorem c6_write_patch_witness :
    (WriteState (fun _ => true) ⟨[], "ak"⟩ "k" [3]).2.2 =
      [{ state := some (mapInsert "k" [3] []), authKey := none }] ∧
    (WriteState (fun _ => true) ⟨[], "ak"⟩ "k" [3]).1.Data =
      mapInsert "k" [3] [] :=
  ⟨(c6_write_patch (fun _ => true) ⟨[], "ak"⟩ "k" [3]).1,
   (c6_write_patch (fun _ => true) ⟨[], "ak"⟩ "k" [3]).2 rfl⟩

/-- C7 counterexample: in the cached store an absent key is reported
through the error return — read yields the distinguished sentinel error
(ipn.ErrStateNotExist), not the non-error nil outcome the claim states. -/
theorem c7_notfound_counterexample :
    ReadState ⟨[], "ak"⟩ "k" = .error .stateNotExist ∧
    ReadState ⟨[], "ak"⟩ "k" ≠ .ok [] :=
  ⟨rfl, fun h => Except.noConfusion h⟩

/-- C7 (amended): an absent key is reported as not-found in both models
but through different channels: the cached store (model B) returns the
distinguished sentinel error ipn.ErrStateNotExist in the error position,
while the synchronous store (model A) returns the zero-value nil bytes
with a nil error and no found indicator. -/
theorem c7_notfound_reporting (s : StoreB) (m : SMap) (id : String)
    (h₁ : mapLookup id s.Data = none) (h₂ : mapLookup id m = none) :
    ReadState s id = .error .stateNotExist ∧
    ReadStateA (.ok m) id = .ok [] := by
  constructor
  · simp [ReadState, h₁]
  · simp [ReadStateA, h₂]

/-- C7 witness: both reporting channels at a concrete store and key. -/
theorem c7_notfound_reporting_witness :
    ReadState ⟨[("a", [1])], "ak"⟩ "k" = .error .stateNotExist ∧
    ReadStateA (.ok [("a", [1])]) "k" = .ok [] :=
  c7_notfound_reporting ⟨[("a", [1])], "ak"⟩ [("a", [1])] "k" rfl rfl

/-- C10: the synchronous store (model A) reads an absent key as nil bytes
with no error, never as the distinguished not-found error, and so a key
bound to an empty value is indistinguishable from an absent key. -/
theorem c10_modelA_absent_nil (d₁ d₂ : SMap) (id : String)
    (h₁ : mapLookup id d₁ = none) (h₂ : mapLookup id d₂ = some []) :
    ReadStateA (.ok d₁) id = .ok [] ∧
    ReadStateA (.ok d₁) id = ReadStateA (.ok d₂) id ∧
    ∀ (fetch : Except String SMap) (key : String),
      ReadStateA fetch key ≠ .error .stateNotExist := by
  refine ⟨?_, ?_, ?_⟩
  · simp [ReadStateA, h₁]
  · simp [ReadStateA, h₁, h₂]
  · intro fetch key
    cases fetch with
    | error e => simp [ReadStateA]
    | ok data => simp [ReadStateA]

/-- C10 witness: an empty map and a map binding the key to empty bytes
yield the same read result at concrete inputs. -/
theorem c10_modelA_absent_nil_witness :
    ReadStateA (.ok []) "k" = .ok [] ∧
    ReadStateA (.ok []) "k" = ReadStateA (.ok [("k", [])]) "k" :=
  ⟨(c10_modelA_absent_nil [] [("k", [])] "k" rfl rfl).1,
   (c10_modelA_absent_nil [] [("k", [])] "k" rfl rfl).2.1⟩

/-- C8: under n writers racing on one key, the read-modify-write cycles
never interleave: any writer inside its critical section holds the mutex,
so no two writers are inside simultaneously; every mutation of the shared
map in the model is a whole-map atomic action taken while holding the
lock, so no torn or partial map is observed; and in every terminal
interleaving in which every persistence call succeeds, the key holds the
value written by exactly one of the writers. -/
theorem c8_writers_serialize {n : Nat} (k : String) (v : Fin n → Bytes)
    (ok : Fin n → Bool) (s₀ : SMap) (s : WConfig n)
    (hn : 0 < n) (hok : ∀ i, ok i = true)
    (hreach :
      Relation.ReflTransGen (WStep n k v ok) (WConfig.init n s₀) s) :
    (∀ i, (s.pc i).mid = true → s.lock = some i) ∧
    (∀ i j, (s.pc i).mid = true → (s.pc j).mid = true → i = j) ∧
    ((∀ i, s.pc i = .donePc) → ∃ i, mapLookup k s.store = some (v i)) ∧
    (Function.Injective v → (∀ i, s.pc i = .donePc) →
      ∃! i, mapLookup k s.store = some (v i)) := by
  obtain ⟨hmutex, hstore⟩ := wInv_reachable hok hreach
  have hterm : (∀ i, s.pc i = .donePc) →
      ∃ i, mapLookup k s.store = some (v i) := by
    intro hdone
    rcases hstore with ⟨_, hall⟩ | hex
    · exfalso
      rcases hall ⟨0, hn⟩ with h | h | h <;>
        (rw [hdone ⟨0, hn⟩] at h; exact WPc.noConfusion h)
    · exact hex
  refine ⟨hmutex, ?_, hterm, ?_⟩
  · intro i j hi hj
    have hli := hmutex i hi
    have hlj := hmutex j hj
    rw [hli] at hlj
    exact Option.some.inj hlj
  · intro hv hdone
    obtain ⟨i, hi⟩ := hterm hdone
    exact ⟨i, hi, fun j hj => hv (Option.some.inj (hj.symm.trans hi))⟩

/-- C8 witness: a five-step execution of one writer with value [7] on an
initially empty map reaches the terminal configuration, satisfying the
mutual-exclusion invariant at every state, with the key bound to that
writer value at the end. -/
theorem c8_writers_serialize_witness :
    (∀ i, wTrace5.pc i = WPc.donePc) ∧
    ∃ i : Fin 1, mapLookup "k" wTrace5.store = some [7] := by
  have s₁ : WStep 1 "k" (fun _ => [7]) (fun _ => true) wTrace0 wTrace1 :=
    WStep.lockStep wTrace0 0 rfl rfl
  have s₂ : WStep 1 "k" (fun _ => [7]) (fun _ => true) wTrace1 wTrace2 :=
    WStep.readStep wTrace1 0 (by decide) (by decide)
  have s₃ : WStep 1 "k" (fun _ => [7]) (fun _ => true) wTrace2 wTrace3 :=
    WStep.stageStep wTrace2 0 (by decide) (by decide)
  have s₄ : WStep 1 "k" (fun _ => [7]) (fun _ => true) wTrace3 wTrace4 :=
    WStep.persistOkStep wTrace3 0 (by decide) (by decide) rfl
  have s₅ : WStep 1 "k" (fun _ => [7]) (fun _ => true) wTrace4 wTrace5 :=
    WStep.unlockStep wTrace4 0 (by decide) (by decide)
  have hreach : Relation.ReflTransGen (WStep 1 "k" (fun _ => [7]) (fun _ => true))
      (WConfig.init 1 []) wTrace5 :=
    Relation.ReflTransGen.tail
      (Relation.ReflTransGen.tail
        (Relation.ReflTransGen.tail
          (Relation.ReflTransGen.tail (Relation.ReflTransGen.single s₁) s₂)
          s₃)
        s₄)
      s₅
  have hdone : ∀ i, wTrace5.pc i = WPc.donePc := by decide
  exact ⟨hdone,
    (c8_writers_serialize "k" (fun _ => [7]) (fun _ => true) [] wTrace5
      (by decide) (fun _ => rfl) hreach).2.2.1 hdone⟩
